import Mathlib

/-!
Verification development for the lattice-controller core: a shallow
embedding of the state projector, reaper, backoff-aware scaler wrapper,
event worker dispatch and command worker, with theorems checking the
specification's claims against the embedded code.

Hash maps are modelled as association lists (`Smap`) with first-occurrence
lookup and in-place replacement on insert; hash sets of actor instances are
modelled as lists with membership decided by instance id, mirroring the
custom `Hash`/`PartialEq` implementations in `storage/state.rs`.
-/

/-- Association map with string keys, modelling Rust `HashMap<String, V>`. -/
abbrev Smap (V : Type) : Type := List (String × V)

/-- Lookup, modelling `HashMap::get`. -/
def Smap.get {V : Type} (m : Smap V) (k : String) : Option V :=
  match m with
  | [] => none
  | (k₁, v) :: rest => if k₁ = k then some v else Smap.get rest k

/-- Insert or replace, modelling `HashMap::insert` (value replaced in place). -/
def Smap.put {V : Type} (m : Smap V) (k : String) (v : V) : Smap V :=
  match m with
  | [] => [(k, v)]
  | (k₁, v₁) :: rest =>
    if k₁ = k then (k, v) :: rest else (k₁, v₁) :: Smap.put rest k v

/-- Delete a key, modelling `HashMap::remove`. -/
def Smap.del {V : Type} (m : Smap V) (k : String) : Smap V :=
  m.filter (fun p => p.1 ≠ k)

/-- Key membership, modelling `HashMap::contains_key`. -/
def Smap.hasKey {V : Type} (m : Smap V) (k : String) : Bool :=
  (Smap.get m k).isSome

/-- Modelling the `entry(k).and_modify(f).or_insert(dflt)` idiom. -/
def Smap.entryModifyOrInsert {V : Type} (m : Smap V) (k : String) (f : V → V)
    (dflt : V) : Smap V :=
  match Smap.get m k with
  | some v => Smap.put m k (f v)
  | none => Smap.put m k dflt

/-- Modelling `Store::store_many` as iterated per-key writes. -/
def Smap.putMany {V : Type} (m : Smap V) (l : List (String × V)) : Smap V :=
  match l with
  | [] => m
  | p :: rest => Smap.putMany (Smap.put m p.1 p.2) rest

/-- Modelling `Store::delete_many` as iterated per-key deletions. -/
def Smap.delMany {V : Type} (m : Smap V) (ks : List String) : Smap V :=
  match ks with
  | [] => m
  | k :: rest => Smap.delMany (Smap.del m k) rest

theorem Smap.get_put_self {V : Type} (m : Smap V) (k : String) (v : V) :
    Smap.get (Smap.put m k v) k = some v := by
  induction m with
  | nil => simp [Smap.put, Smap.get]
  | cons hd tl ih =>
    by_cases h : hd.1 = k
    · simp [Smap.put, h, Smap.get]
    · simpa [Smap.put, h, Smap.get] using ih

theorem Smap.get_put_ne {V : Type} (m : Smap V) (k k₂ : String) (v : V)
    (h : k ≠ k₂) : Smap.get (Smap.put m k v) k₂ = Smap.get m k₂ := by
  induction m with
  | nil => simp [Smap.put, Smap.get, h]
  | cons hd tl ih =>
    by_cases h₁ : hd.1 = k
    · simp [Smap.put, h₁, Smap.get, h, Ne.symm h]
    · by_cases h₂ : hd.1 = k₂ <;>
        simp [Smap.put, h₁, Smap.get, h₂, ih, h, Ne.symm h]

theorem Smap.get_del_self {V : Type} (m : Smap V) (k : String) :
    Smap.get (Smap.del m k) k = none := by
  induction m with
  | nil => simp [Smap.del, Smap.get]
  | cons hd tl ih =>
    by_cases h : hd.1 = k
    · simpa [Smap.del, List.filter_cons, h, Smap.get] using ih
    · simpa [Smap.del, List.filter_cons, h, Smap.get] using ih

theorem Smap.get_del_ne {V : Type} (m : Smap V) (k k₂ : String) (h : k ≠ k₂) :
    Smap.get (Smap.del m k) k₂ = Smap.get m k₂ := by
  induction m with
  | nil => simp [Smap.del, Smap.get]
  | cons hd tl ih =>
    by_cases h₁ : hd.1 = k
    · have h₂ : ¬hd.1 = k₂ := by rw [h₁]; exact h
      simpa [Smap.del, List.filter_cons, h₁, Smap.get, h₂, h, Ne.symm h] using ih
    · by_cases h₂ : hd.1 = k₂ <;>
        simpa [Smap.del, List.filter_cons, h₁, Smap.get, h₂, h, Ne.symm h] using ih

/-- Last binding for a key in a list of writes (later writes win in `putMany`). -/
def lastBinding {V : Type} (l : List (String × V)) (k : String) : Option V :=
  match l with
  | [] => none
  | p :: rest =>
    match lastBinding rest k with
    | some v => some v
    | none => if p.1 = k then some p.2 else none

theorem Smap.get_putMany {V : Type} (m : Smap V) (l : List (String × V))
    (k : String) :
    Smap.get (Smap.putMany m l) k = (lastBinding l k).elim (Smap.get m k) some := by
  induction l generalizing m with
  | nil => simp [Smap.putMany, lastBinding]
  | cons hd tl ih =>
    rw [show Smap.putMany m (hd :: tl) = Smap.putMany (Smap.put m hd.1 hd.2) tl
      from rfl]
    rw [ih]
    cases hlb : lastBinding tl k with
    | some w => simp [lastBinding, hlb]
    | none =>
      by_cases h : hd.1 = k
      · simp [lastBinding, hlb, h, Smap.get_put_self]
      · simp [lastBinding, hlb, h, Smap.get_put_ne _ _ _ _ h]

theorem Smap.get_delMany {V : Type} (m : Smap V) (ks : List String) (k : String) :
    Smap.get (Smap.delMany m ks) k = if k ∈ ks then none else Smap.get m k := by
  induction ks generalizing m with
  | nil => simp [Smap.delMany]
  | cons hd tl ih =>
    rw [show Smap.delMany m (hd :: tl) = Smap.delMany (Smap.del m hd) tl from rfl]
    rw [ih]
    by_cases h : k ∈ tl
    · simp [h]
    · by_cases h₂ : hd = k
      · simp [h, h₂, Smap.get_del_self]
      · simp [h, h₂, Ne.symm h₂, Smap.get_del_ne _ _ _ h₂]

/-! ## Data model (`storage/state.rs`) -/

/-- Provider status on a host (`storage/state.rs`, `ProviderStatus`). -/
inductive ProviderStatus where
  | pending
  | running
  | failed
  deriving DecidableEq

/-- `ProviderStatus::default()` is `Pending`. -/
def ProviderStatus.default : ProviderStatus := .pending

/-- Provider descriptor kept in a `Host` (`events`; fields as used in
`workers/event.rs`): contract id, link name, public key, annotations. -/
structure ProviderInfo where
  contract_id : String
  link_name : String
  public_key : String
  annotations : Smap String
  deriving DecidableEq

/-- An individual actor instance descriptor (`storage/state.rs`,
`WadmActorInstance`). -/
structure WadmActorInstance where
  instance_id : String
  annotations : Smap String
  deriving DecidableEq

/-- `WadmActorInstance::from_id`. -/
def WadmActorInstance.from_id (instance_id : String) : WadmActorInstance :=
  ⟨instance_id, []⟩

/-- The custom `PartialEq`/`Hash` for `WadmActorInstance`: compared only by
the instance id, ignoring annotations. -/
def wadmInstanceEq (a b : WadmActorInstance) : Bool :=
  a.instance_id == b.instance_id

/-- Instance-set membership under `wadmInstanceEq` (Rust `HashSet::contains`). -/
def instSetMem (s : List WadmActorInstance) (i : WadmActorInstance) : Bool :=
  s.any (fun j => wadmInstanceEq j i)

/-- Rust `HashSet::insert`: when an equal element (same instance id) is
already present the set is unchanged and the OLD element is retained. -/
def instSetInsert (s : List WadmActorInstance) (i : WadmActorInstance) :
    List WadmActorInstance :=
  if instSetMem s i then s else s ++ [i]

/-- Rust `HashSet::remove` by a `from_id` probe: drops the element with the
given instance id; pairs the shrunk set with whether anything was removed. -/
def instSetRemove (s : List WadmActorInstance) (iid : String) :
    List WadmActorInstance × Bool :=
  (s.filter (fun j => j.instance_id ≠ iid), s.any (fun j => j.instance_id == iid))

/-- A stored wasmCloud actor (`storage/state.rs`, `Actor`). `instances` maps a
host id to the set of instance descriptors on that host. -/
structure Actor where
  id : String
  name : String
  capabilities : List String
  issuer : String
  call_alias : Option String
  instances : Smap (List WadmActorInstance)
  reference : String
  deriving DecidableEq

/-- A stored wasmCloud capability provider (`storage/state.rs`, `Provider`).
`hosts` maps a host id to the provider's status on that host. -/
structure Provider where
  id : String
  name : String
  issuer : String
  contract_id : String
  reference : String
  link_name : String
  hosts : Smap ProviderStatus
  deriving DecidableEq

/-- A stored wasmCloud host (`storage/state.rs`, `Host`). `actors` maps an
actor id to the instance count on this host; `last_seen` is a timestamp
(modelled as an integer). -/
structure Host where
  actors : Smap Nat
  friendly_name : String
  labels : Smap String
  annotations : Smap String
  providers : List ProviderInfo
  uptime_seconds : Nat
  version : Option String
  id : String
  last_seen : Int
  deriving DecidableEq

/-- The per-lattice Store contents relevant to the claims: keyed collections
of hosts, actors and providers (`Store` capability, keys `KIND/id`). -/
structure StoreState where
  hosts : Smap Host
  actors : Smap Actor
  providers : Smap Provider
  deriving DecidableEq

/-- `storage::provider_id`: the provider key formed from public key and link
name. -/
def provider_id (public_key link_name : String) : String :=
  public_key ++ "/" ++ link_name

/-! ## Events (`events`, fields as used in `workers/event.rs` and
`scaler/mod.rs`) -/

/-- Actor claims carried on started events (fields as used in
`storage/state.rs` `Actor::from`). -/
structure ActorClaims where
  name : String
  capabilites : List String
  issuer : String
  call_alias : Option String
  version : String
  deriving DecidableEq

/-- Provider claims carried on provider-started events. -/
structure ProviderClaims where
  name : String
  issuer : String
  version : String
  deriving DecidableEq

structure ActorStarted where
  claims : ActorClaims
  image_ref : String
  public_key : String
  host_id : String
  annotations : Smap String
  instance_id : String
  deriving DecidableEq

structure ActorStopped where
  annotations : Smap String
  instance_id : String
  public_key : String
  host_id : String
  deriving DecidableEq

structure ActorsStarted where
  claims : ActorClaims
  annotations : Smap String
  image_ref : String
  public_key : String
  count : Nat
  host_id : String
  deriving DecidableEq

structure ActorsStartFailed where
  annotations : Smap String
  image_ref : String
  public_key : String
  host_id : String
  error : String
  deriving DecidableEq

structure ActorsStopped where
  annotations : Smap String
  public_key : String
  count : Nat
  host_id : String
  deriving DecidableEq

structure ProviderStarted where
  claims : ProviderClaims
  image_ref : String
  public_key : String
  host_id : String
  annotations : Smap String
  instance_id : String
  contract_id : String
  link_name : String
  deriving DecidableEq

structure ProviderStopped where
  annotations : Smap String
  contract_id : String
  instance_id : String
  link_name : String
  public_key : String
  reason : String
  host_id : String
  deriving DecidableEq

structure ProviderStartFailed where
  provider_ref : String
  link_name : String
  host_id : String
  error : String
  deriving DecidableEq

structure ProviderHealthCheckInfo where
  public_key : String
  link_name : String
  deriving DecidableEq

structure HostStarted where
  friendly_name : String
  id : String
  labels : Smap String
  deriving DecidableEq

structure HostStopped where
  labels : Smap String
  id : String
  deriving DecidableEq

structure HostHeartbeat where
  actors : Smap Nat
  friendly_name : String
  labels : Smap String
  annotations : Smap String
  providers : List ProviderInfo
  uptime_human : String
  uptime_seconds : Nat
  version : String
  id : String
  deriving DecidableEq

structure Linkdef where
  id : String
  actor_id : String
  provider_id : String
  link_name : String
  contract_id : String
  values : Smap String
  deriving DecidableEq

/-- The lattice event type (`events::Event`), with the variants matched in
`workers/event.rs` and `scaler/mod.rs`; `other` stands for the remaining
variants that fall into `do_work`'s wildcard arm. -/
inductive Event where
  | actorStarted (e : ActorStarted)
  | actorStopped (e : ActorStopped)
  | actorsStarted (e : ActorsStarted)
  | actorsStartFailed (e : ActorsStartFailed)
  | actorsStopped (e : ActorsStopped)
  | providerStarted (e : ProviderStarted)
  | providerStopped (e : ProviderStopped)
  | providerStartFailed (e : ProviderStartFailed)
  | providerHealthCheckPassed (data : ProviderHealthCheckInfo) (host_id : String)
  | providerHealthCheckFailed (data : ProviderHealthCheckInfo) (host_id : String)
  | hostStarted (e : HostStarted)
  | hostStopped (e : HostStopped)
  | hostHeartbeat (e : HostHeartbeat)
  | linkdefSet (linkdef : Linkdef)
  | linkdefDeleted (linkdef : Linkdef)
  | manifestPublished (name : String)
  | manifestUnpublished (name : String)
  | other (tag : String)
  deriving DecidableEq

/-! ## Expected-event matching (`scaler/mod.rs`, `evt_matches_expected`) -/

/-- The specialized comparison between an incoming lattice event and an
expected event stored alongside a scaler (`scaler/mod.rs`,
`evt_matches_expected`): per-variant fingerprint equality, `false` for any
other pair of variants. -/
def evt_matches_expected (incoming expected : Event) : Bool :=
  match incoming, expected with
  | .actorsStarted e₁, .actorsStarted e₂ =>
    e₁.annotations == e₂.annotations && e₁.image_ref == e₂.image_ref &&
      e₁.count == e₂.count && e₁.host_id == e₂.host_id
  | .actorsStartFailed e₁, .actorsStartFailed e₂ =>
    e₁.annotations == e₂.annotations && e₁.image_ref == e₂.image_ref &&
      e₁.host_id == e₂.host_id
  | .actorsStopped e₁, .actorsStopped e₂ =>
    e₁.annotations == e₂.annotations && e₁.public_key == e₂.public_key &&
      e₁.count == e₂.count && e₁.host_id == e₂.host_id
  | .providerStarted e₁, .providerStarted e₂ =>
    e₁.annotations == e₂.annotations && e₁.image_ref == e₂.image_ref &&
      e₁.link_name == e₂.link_name && e₁.host_id == e₂.host_id
  | .providerStartFailed e₁, .providerStartFailed e₂ =>
    e₁.link_name == e₂.link_name && e₁.host_id == e₂.host_id
  | .linkdefSet l₁, .linkdefSet l₂ =>
    l₁.actor_id == l₂.actor_id && l₁.contract_id == l₂.contract_id &&
      l₁.link_name == l₂.link_name && l₁.provider_id == l₂.provider_id &&
      l₁.values == l₂.values
  | _, _ => false

/-- Modelled from the spec: the expected-event matching table of section 4.4
of the specification, stated independently of the code — a pair matches
exactly when both events are the same variant and the variant's listed
fingerprint fields are all equal. -/
def MatchesSpec (i e : Event) : Prop :=
  (∃ e₁ e₂, i = .actorsStarted e₁ ∧ e = .actorsStarted e₂ ∧
    e₁.annotations = e₂.annotations ∧ e₁.image_ref = e₂.image_ref ∧
    e₁.count = e₂.count ∧ e₁.host_id = e₂.host_id) ∨
  (∃ e₁ e₂, i = .actorsStartFailed e₁ ∧ e = .actorsStartFailed e₂ ∧
    e₁.annotations = e₂.annotations ∧ e₁.image_ref = e₂.image_ref ∧
    e₁.host_id = e₂.host_id) ∨
  (∃ e₁ e₂, i = .actorsStopped e₁ ∧ e = .actorsStopped e₂ ∧
    e₁.annotations = e₂.annotations ∧ e₁.public_key = e₂.public_key ∧
    e₁.count = e₂.count ∧ e₁.host_id = e₂.host_id) ∨
  (∃ e₁ e₂, i = .providerStarted e₁ ∧ e = .providerStarted e₂ ∧
    e₁.annotations = e₂.annotations ∧ e₁.image_ref = e₂.image_ref ∧
    e₁.link_name = e₂.link_name ∧ e₁.host_id = e₂.host_id) ∨
  (∃ e₁ e₂, i = .providerStartFailed e₁ ∧ e = .providerStartFailed e₂ ∧
    e₁.link_name = e₂.link_name ∧ e₁.host_id = e₂.host_id) ∨
  (∃ l₁ l₂, i = .linkdefSet l₁ ∧ e = .linkdefSet l₂ ∧
    l₁.actor_id = l₂.actor_id ∧ l₁.contract_id = l₂.contract_id ∧
    l₁.link_name = l₂.link_name ∧ l₁.provider_id = l₂.provider_id ∧
    l₁.values = l₂.values)

/-- A tag distinguishing event variants, to state that differing variants
never match. -/
def eventVariantTag : Event → Nat
  | .actorStarted _ => 0
  | .actorStopped _ => 1
  | .actorsStarted _ => 2
  | .actorsStartFailed _ => 3
  | .actorsStopped _ => 4
  | .providerStarted _ => 5
  | .providerStopped _ => 6
  | .providerStartFailed _ => 7
  | .providerHealthCheckPassed _ _ => 8
  | .providerHealthCheckFailed _ _ => 9
  | .hostStarted _ => 10
  | .hostStopped _ => 11
  | .hostHeartbeat _ => 12
  | .linkdefSet _ => 13
  | .linkdefDeleted _ => 14
  | .manifestPublished _ => 15
  | .manifestUnpublished _ => 16
  | .other _ => 17

set_option maxHeartbeats 1600000 in
/-- C7: the expected-event matching predicate returns true exactly when both
events are the same variant with the variant's listed fingerprint fields all
equal (ComponentsStarted on annotations/image-ref/count/host-id;
ComponentsStartFailed on annotations/image-ref/host-id; ComponentsStopped on
annotations/public-key/count/host-id; ProviderStarted on
annotations/image-ref/link-name/host-id; ProviderStartFailed on
link-name/host-id alone; LinkSet on source/contract/link-name/target/values),
and any pair of differing variants never matches. -/
theorem evt_matches_expected_matches_spec (i e : Event) :
    (evt_matches_expected i e = true ↔ MatchesSpec i e) ∧
    (eventVariantTag i ≠ eventVariantTag e → evt_matches_expected i e = false) := by
  constructor
  · cases i <;> cases e <;> simp [evt_matches_expected, MatchesSpec, and_assoc]
  · intro h
    cases i <;> cases e <;> simp_all [eventVariantTag, evt_matches_expected]

/-! ## Commands (`commands.rs`, fields as used in `workers/command.rs`) -/

structure ScaleComponent where
  component_id : String
  reference : String
  host_id : String
  count : Nat
  model_name : String
  annotations : Smap String
  config : List String
  deriving DecidableEq

structure StartProvider where
  reference : String
  provider_id : String
  host_id : String
  model_name : String
  annotations : Smap String
  config : List String
  deriving DecidableEq

structure StopProvider where
  provider_id : String
  host_id : String
  model_name : String
  annotations : Smap String
  deriving DecidableEq

structure PutLinkDef where
  source_id : String
  target : String
  link_name : String
  wit_namespace : String
  wit_package : String
  model_name : String
  deriving DecidableEq

structure DeleteLinkDef where
  source_id : String
  link_name : String
  wit_namespace : String
  wit_package : String
  model_name : String
  deriving DecidableEq

structure PutConfig where
  config_name : String
  config : Smap String
  deriving DecidableEq

/-- The command type (`commands::Command`) consumed by the command worker,
with the seven variants matched in `workers/command.rs`. -/
inductive Command where
  | scaleComponent (c : ScaleComponent)
  | startProvider (c : StartProvider)
  | stopProvider (c : StopProvider)
  | putLink (c : PutLinkDef)
  | deleteLink (c : DeleteLinkDef)
  | putConfig (c : PutConfig)
  | deleteConfig (config_name : String)
  deriving DecidableEq

/-! ## Backoff-aware scaler wrapper (`scaler/mod.rs`, `BackoffAwareScaler`)

The wrapper's mutable parts are the expected-event list and the cleanup
task handle. The one-shot cleanup task is modelled by the deadline at which
it would fire (`cleanupDeadline`); spawning a new task with
`set_timed_cleanup` aborts the previous handle, i.e. overwrites the
deadline. Notification publishing and the event conversion done for
notifications are modelled on their success path. -/

/-- Cross-replica notifications published by the wrapper
(`scaler/manager.rs`, `Notifications`). -/
inductive Notification where
  | registerExpectedEvents (name scaler_id : String) (triggering : Option Event)
  | removeExpectedEvent (name scaler_id : String) (event : Event)
  deriving DecidableEq

/-- Mutable state of a `BackoffAwareScaler`. -/
structure BackoffState where
  expectedEvents : List (Event × Option Event)
  cleanupDeadline : Option Nat
  deriving DecidableEq

/-- A pending (success, optional failure) pair consumes the incoming event
when either component matches it (the `retain` predicate of `remove_event`,
negated). -/
def pairMatches (p : Event × Option Event) (ev : Event) : Bool :=
  evt_matches_expected p.1 ev ||
    (p.2.elim false (fun f => evt_matches_expected f ev))

/-- `BackoffAwareScaler::set_timed_cleanup`: aborts any existing cleanup
task and spawns one that will clear the list `cleanup_timeout` from now. -/
def setTimedCleanup (cleanup_timeout now : Nat) (st : BackoffState) :
    BackoffState :=
  { st with cleanupDeadline := some (now + cleanup_timeout) }

/-- `BackoffAwareScaler::add_events`: optionally clear, extend the list,
then reschedule the timed cleanup. -/
def addEvents (cleanup_timeout now : Nat) (st : BackoffState)
    (events : List (Event × Option Event)) (clear_previous : Bool) :
    BackoffState :=
  let base := if clear_previous then [] else st.expectedEvents
  setTimedCleanup cleanup_timeout now
    { st with expectedEvents := base ++ events }

/-- `BackoffAwareScaler::remove_event`: retain the pairs that do not match
the event; report whether the length changed. The cleanup timer is not
touched. -/
def removeEvent (st : BackoffState) (ev : Event) : BackoffState × Bool :=
  let kept := st.expectedEvents.filter (fun p => !(pairMatches p ev))
  ({ st with expectedEvents := kept },
    kept.length != st.expectedEvents.length)

/-- The spawned cleanup task firing: the expected-event list is cleared
unconditionally. -/
def cleanupTimerFire (_st : BackoffState) : BackoffState :=
  { expectedEvents := [], cleanupDeadline := none }

/-- `BackoffAwareScaler::handle_event_internal`. The inner scaler's
`handle_event` and the corresponding-event computation are passed as
functions. Returns the commands, the new state and the published
notifications. -/
def handleEventInternal (inner_handle : Event → List Command)
    (corresponding : Command → Option (Event × Option Event))
    (model_name scaler_id : String) (cleanup_timeout now : Nat)
    (st : BackoffState) (ev : Event) :
    List Command × BackoffState × List Notification :=
  let res := removeEvent st ev
  if res.2 then
    ([], res.1, [.removeExpectedEvent model_name scaler_id ev])
  else if res.1.expectedEvents.length > 0 then
    ([], res.1, [])
  else
    let commands := inner_handle ev
    let expected := commands.filterMap corresponding
    let notes : List Notification :=
      if commands.isEmpty then []
      else [.registerExpectedEvents model_name scaler_id (some ev)]
    (commands, addEvents cleanup_timeout now res.1 expected false, notes)

/-- `BackoffAwareScaler::reconcile_internal`. The inner scaler's
`reconcile` result is passed as a value (success path). -/
def reconcileInternal (inner_reconcile : List Command)
    (corresponding : Command → Option (Event × Option Event))
    (model_name scaler_id : String) (cleanup_timeout now : Nat)
    (st : BackoffState) :
    List Command × BackoffState × List Notification :=
  if st.expectedEvents.length > 0 then
    ([], st, [])
  else if inner_reconcile.isEmpty then
    (inner_reconcile, st, [])
  else
    (inner_reconcile,
      addEvents cleanup_timeout now st
        (inner_reconcile.filterMap corresponding) true,
      [.registerExpectedEvents model_name scaler_id none])

/-! ## State projection (`workers/event.rs`) -/

/-- `Actor::from(&ActorStarted)` (`storage/state.rs`): build an actor record
from the event's claims, with empty instances. -/
def Actor.fromStarted (e : ActorStarted) : Actor :=
  { id := e.public_key
    name := e.claims.name
    capabilities := e.claims.capabilites
    issuer := e.claims.issuer
    call_alias := e.claims.call_alias
    instances := []
    reference := e.image_ref }

/-- `EventWorker::handle_actor_started`: merge the new instance into the
component's host set (overwriting everything except counts when the actor
already exists) and increment the host's per-component count. -/
def handle_actor_started (s : StoreState) (actor : ActorStarted) : StoreState :=
  let actor_data₀ := Actor.fromStarted actor
  let actor_data :=
    match Smap.get s.actors actor.public_key with
    | some current => { actor_data₀ with instances := current.instances }
    | none => actor_data₀
  let s₁ :=
    match Smap.get s.hosts actor.host_id with
    | some host =>
      let host₁ := { host with
        actors := Smap.entryModifyOrInsert host.actors actor.public_key
          (fun count => count + 1) 1 }
      { s with hosts := Smap.put s.hosts host₁.id host₁ }
    | none => s
  let inst : WadmActorInstance := ⟨actor.instance_id, actor.annotations⟩
  let actor_data₁ := { actor_data with
    instances := Smap.entryModifyOrInsert actor_data.instances actor.host_id
      (fun val => instSetInsert val inst) [inst] }
  { s₁ with actors := Smap.put s₁.actors actor.public_key actor_data₁ }

/-- `EventWorker::handle_actor_stopped`: remove the matching instance
descriptor (identified by instance id alone), dropping the host mapping when
it empties and the actor when all mappings are gone; then decrement the
host's count, removing the entry at zero. -/
def handle_actor_stopped (s : StoreState) (actor : ActorStopped) : StoreState :=
  let s₁ :=
    match Smap.get s.actors actor.public_key with
    | some current =>
      let current₁ :=
        match Smap.get current.instances actor.host_id with
        | some current_instances =>
          let res := instSetRemove current_instances actor.instance_id
          let without := Smap.del current.instances actor.host_id
          if res.2 && res.1.isEmpty then
            { current with instances := without }
          else
            { current with
              instances := Smap.put without actor.host_id res.1 }
        | none => current
      if current₁.instances.isEmpty then
        { s with actors := Smap.del s.actors actor.public_key }
      else
        { s with actors := Smap.put s.actors actor.public_key current₁ }
    | none => s
  match Smap.get s₁.hosts actor.host_id with
  | some host =>
    let newActors :=
      match Smap.get host.actors actor.public_key with
      | some existing_count =>
        if existing_count ≤ 1 then Smap.del host.actors actor.public_key
        else Smap.put host.actors actor.public_key (existing_count - 1)
      | none => host.actors
    let host₁ := { host with actors := newActors }
    { s₁ with hosts := Smap.put s₁.hosts host₁.id host₁ }
  | none => s₁

/-- Store operations issued by `handle_host_stopped`, kept as a trace to
state in which order the writes happen. -/
inductive StoreOp where
  | storeActors (l : List (String × Actor))
  | deleteActors (ids : List String)
  | storeProviders (l : List (String × Provider))
  | deleteProviders (ids : List String)
  | deleteHost (id : String)
  deriving DecidableEq

/-- The actors affected by a host stop: those stored actors whose id is
listed in the host record's count map, with the host record's id stripped
from their instance mapping (`handle_host_stopped`, the `filter_map` over
`all_actors`). -/
def hsProcessedActors (s : StoreState) (current : Host) :
    List (String × Actor) :=
  s.actors.filterMap (fun p =>
    if Smap.hasKey current.actors p.1 then
      some (p.1, { p.2 with instances := Smap.del p.2.instances current.id })
    else none)

/-- The affected actors that still have instances elsewhere. -/
def hsActorsToUpdate (s : StoreState) (current : Host) :
    List (String × Actor) :=
  (hsProcessedActors s current).filter (fun p => !p.2.instances.isEmpty)

/-- The ids of the affected actors whose instance mapping emptied. -/
def hsActorsToDelete (s : StoreState) (current : Host) : List String :=
  ((hsProcessedActors s current).filter (fun p => p.2.instances.isEmpty)).map
    (fun p => p.1)

/-- One step of the `filter_map` over `current.providers` in
`handle_host_stopped`: look the descriptor's provider up in the store and
strip the event's host id from its host map when present. -/
def hsProviderStep (s : StoreState) (event_host_id : String)
    (info : ProviderInfo) : Option (String × Provider) :=
  let key := provider_id info.public_key info.link_name
  match Smap.get s.providers key with
  | some prov =>
    if Smap.hasKey prov.hosts event_host_id then
      some (key, { prov with hosts := Smap.del prov.hosts event_host_id })
    else none
  | none => none

/-- The providers affected by a host stop: those named by the host record's
provider set, stored, and actually mapping the event's host id, with that
id stripped (`handle_host_stopped`, the `filter_map` over
`current.providers`). -/
def hsProcessedProviders (s : StoreState) (current : Host)
    (event_host_id : String) : List (String × Provider) :=
  current.providers.filterMap (hsProviderStep s event_host_id)

/-- The affected providers that still run elsewhere. -/
def hsProvidersToUpdate (s : StoreState) (current : Host)
    (event_host_id : String) : List (String × Provider) :=
  (hsProcessedProviders s current event_host_id).filter
    (fun p => !p.2.hosts.isEmpty)

/-- The keys of the affected providers whose host mapping emptied. -/
def hsProvidersToDelete (s : StoreState) (current : Host)
    (event_host_id : String) : List String :=
  ((hsProcessedProviders s current event_host_id).filter
    (fun p => p.2.hosts.isEmpty)).map (fun p => p.1)

/-- `EventWorker::handle_host_stopped`: when the host is known, strip its id
from the actors listed in the host record's count map and from the providers
listed in the host record's provider set, update or delete them depending on
whether their mapping emptied, and delete the host record last. Returns the
resulting store and the ordered trace of store writes. -/
def handle_host_stopped (s : StoreState) (host : HostStopped) :
    StoreState × List StoreOp :=
  match Smap.get s.hosts host.id with
  | none => (s, [])
  | some current =>
    let actors_to_update := hsActorsToUpdate s current
    let actors_to_delete := hsActorsToDelete s current
    let s₁ := { s with actors := Smap.putMany s.actors actors_to_update }
    let s₂ := { s₁ with actors := Smap.delMany s₁.actors actors_to_delete }
    let providers_to_update := hsProvidersToUpdate s current host.id
    let providers_to_delete := hsProvidersToDelete s current host.id
    let s₃ := { s₂ with
      providers := Smap.putMany s₂.providers providers_to_update }
    let s₄ := { s₃ with
      providers := Smap.delMany s₃.providers providers_to_delete }
    let s₅ := { s₄ with hosts := Smap.del s₄.hosts host.id }
    (s₅,
      [StoreOp.storeActors actors_to_update,
       StoreOp.deleteActors actors_to_delete,
       StoreOp.storeProviders providers_to_update,
       StoreOp.deleteProviders providers_to_delete,
       StoreOp.deleteHost host.id])

/-! ## Event worker dispatch (`workers/event.rs`, `do_work` and
`run_scalers_with_hint`) -/

/-- Modelled from the spec: the manifest-name ("app spec") annotation key
`APP_SPEC_ANNOTATION`, whose defining constant lives outside the provided
sources; only its identity matters here. -/
def APP_SPEC_ANNOT : String := "wasmcloud.dev/appspec"

/-- The annotations carried by an event, when its variant has an
annotations field. -/
def eventAnnotations : Event → Option (Smap String)
  | .actorStarted e => some e.annotations
  | .actorStopped e => some e.annotations
  | .actorsStarted e => some e.annotations
  | .actorsStopped e => some e.annotations
  | .actorsStartFailed e => some e.annotations
  | .providerStarted e => some e.annotations
  | .providerStopped e => some e.annotations
  | .hostHeartbeat e => some e.annotations
  | _ => none

/-- The manifest name an event carries in its annotations, if any. -/
def eventManifestName (ev : Event) : Option String :=
  (eventAnnotations ev).bind (fun a => Smap.get a APP_SPEC_ANNOT)

/-- How the event worker continues after the state-update phase:
run one manifest's scalers, run every scaler, or (successful
manifest-unpublish) ack without any scaler pass. -/
inductive DispatchOutcome where
  | hint (name : String)
  | broadcast
  | acked
  deriving DecidableEq

/-- The name-hint extraction of one `do_work` arm: a hint when the
annotations carry the manifest-name key, broadcast otherwise. -/
def dispatchFromAnnots (annots : Smap String) : DispatchOutcome :=
  match Smap.get annots APP_SPEC_ANNOT with
  | some n => .hint n
  | none => .broadcast

/-- `EventWorker::do_work`, success path of the state-update phase: which
scaler pass each event variant leads to. `scalersExist name` models whether
`remove_scalers` finds scalers for that manifest (the
manifest-unpublished arm acks directly when it does). -/
def eventDispatch (scalersExist : String → Bool) : Event → DispatchOutcome
  | .actorsStarted e => dispatchFromAnnots e.annotations
  | .actorsStopped e => dispatchFromAnnots e.annotations
  | .actorStarted e => dispatchFromAnnots e.annotations
  | .actorStopped e => dispatchFromAnnots e.annotations
  | .hostHeartbeat _ => .broadcast
  | .hostStarted _ => .broadcast
  | .hostStopped _ => .broadcast
  | .linkdefDeleted _ => .broadcast
  | .providerStarted e => dispatchFromAnnots e.annotations
  | .providerStopped _ => .broadcast
  | .providerHealthCheckPassed _ _ => .broadcast
  | .providerHealthCheckFailed _ _ => .broadcast
  | .manifestPublished _ => .broadcast
  | .manifestUnpublished name =>
    if scalersExist name then .acked else .broadcast
  | .actorsStartFailed e => dispatchFromAnnots e.annotations
  | .providerStartFailed _ => .broadcast
  | .linkdefSet _ => .broadcast
  | .other _ => .broadcast

/-- The variants whose `do_work` arm extracts a manifest-name hint from the
event's annotations. -/
def hintedVariant : Event → Bool
  | .actorsStarted _ => true
  | .actorsStopped _ => true
  | .actorStarted _ => true
  | .actorStopped _ => true
  | .providerStarted _ => true
  | .actorsStartFailed _ => true
  | _ => false

/-- Which scalers run `handle_event` given a dispatch outcome, over a
scaler manager mapping manifest names to scaler id lists
(`run_scalers_with_hint` / `run_all_scalers`). -/
def scalersRun (mgr : Smap (List String)) : DispatchOutcome → List String
  | .hint name => (Smap.get mgr name).elim [] (fun l => l)
  | .broadcast => (mgr.map (fun p => p.2)).foldr (fun a b => a ++ b) []
  | .acked => []

/-! ## Reaper (`storage/reaper.rs`, `Undertaker::reap_hosts`) -/

/-- The host ids selected for removal by one reaping pass: those whose
elapsed time `now - last_seen` strictly exceeds twice the check interval. -/
def reapHostsToRemove (now : Int) (interval : Nat) (hosts : Smap Host) :
    List String :=
  hosts.filterMap (fun p =>
    if now - p.2.last_seen > (interval : Int) * 2 then some p.1 else none)

/-- `Undertaker::reap_hosts`: delete the selected hosts from the store. -/
def reap_hosts (now : Int) (interval : Nat) (s : StoreState) : StoreState :=
  { s with hosts := Smap.delMany s.hosts (reapHostsToRemove now interval s.hosts) }

/-! ## Command worker (`workers/command.rs`) -/

/-- A control-interface acknowledgement `{success, message}` returned by the
Lattice Client. -/
structure CtlResponse where
  success : Bool
  message : String
  deriving DecidableEq

/-- The fate of the in-flight command message after `do_work`. -/
inductive WorkOutcome where
  | acked
  | nackedWithError (msg : String)
  deriving DecidableEq

/-- `CommandWorker::do_work`: issue the one control call for the command
(the call, including managed-annotation injection, is abstracted as
`client`, returning either a transport error or a `CtlResponse`), then ack
on success, nack and error otherwise. The final `message.ack()` is modelled
as succeeding. -/
def commandWorkerDoWork (client : Command → Except String CtlResponse)
    (cmd : Command) : WorkOutcome :=
  match client cmd with
  | .ok ack => if !ack.success then .nackedWithError ack.message else .acked
  | .error e => .nackedWithError e

/-! ## Helper lemmas -/


theorem Smap.mem_of_get {V : Type} (m : Smap V) (k : String) (v : V)
    (h : Smap.get m k = some v) : (k, v) ∈ m := by
  induction m with
  | nil => simp [Smap.get] at h
  | cons hd tl ih =>
    cases hd with
    | mk k₁ v₁ =>
      by_cases h₁ : k₁ = k
      · subst h₁
        simp [Smap.get] at h
        subst h
        exact List.mem_cons_self _ _
      · simp [Smap.get, h₁] at h
        exact List.mem_cons_of_mem _ (ih h)

theorem Smap.get_of_mem_nodup {V : Type} (m : Smap V) (k : String) (v : V)
    (hnd : (m.map Prod.fst).Nodup) (h : (k, v) ∈ m) : Smap.get m k = some v := by
  induction m with
  | nil => simp at h
  | cons hd tl ih =>
    cases hd with
    | mk k₁ v₁ =>
      simp only [List.map_cons, List.nodup_cons] at hnd
      rcases List.mem_cons.mp h with he | hm
      · cases he
        simp [Smap.get]
      · have hk : k₁ ≠ k := by
          intro hc
          exact hnd.1 (hc ▸ (List.mem_map.mpr ⟨(k, v), hm, rfl⟩))
        simp [Smap.get, hk, ih hnd.2 hm]

theorem Smap.eq_of_mem_mem_nodup {V : Type} (m : Smap V) (k : String)
    (v w : V) (hnd : (m.map Prod.fst).Nodup) (hv : (k, v) ∈ m)
    (hw : (k, w) ∈ m) : v = w := by
  have h₁ := Smap.get_of_mem_nodup m k v hnd hv
  have h₂ := Smap.get_of_mem_nodup m k w hnd hw
  rw [h₁] at h₂
  exact Option.some.inj h₂

theorem lastBinding_eq_none {V : Type} (l : List (String × V)) (k : String)
    (h : ∀ p ∈ l, p.1 ≠ k) : lastBinding l k = none := by
  induction l with
  | nil => rfl
  | cons hd tl ih =>
    have hh := h hd (by simp)
    have ht := ih (fun p hp => h p (by simp [hp]))
    simp [lastBinding, ht, hh]

theorem lastBinding_of_mem_nodup {V : Type} (l : List (String × V))
    (k : String) (v : V) (hnd : (l.map Prod.fst).Nodup) (h : (k, v) ∈ l) :
    lastBinding l k = some v := by
  induction l with
  | nil => simp at h
  | cons hd tl ih =>
    cases hd with
    | mk k₁ v₁ =>
      simp only [List.map_cons, List.nodup_cons] at hnd
      rcases List.mem_cons.mp h with he | hm
      · cases he
        have hnone : lastBinding tl k = none :=
          lastBinding_eq_none tl k (fun p hp hc => hnd.1
            (hc ▸ (List.mem_map.mpr ⟨p, hp, rfl⟩)))
        simp [lastBinding, hnone]
      · have hsome := ih hnd.2 hm
        simp [lastBinding, hsome]

theorem length_filter_lt_of_exists_not {α : Type} (l : List α) (p : α → Bool)
    (h : ∃ x ∈ l, p x = false) : (l.filter p).length < l.length := by
  induction l with
  | nil => simp at h
  | cons hd tl ih =>
    rcases h with ⟨x, hx, hpx⟩
    have hle := List.length_filter_le p tl
    rcases List.mem_cons.mp hx with he | hm
    · subst he
      simp [List.filter_cons, hpx]
      omega
    · cases hp : p hd with
      | true =>
        have hlt := ih ⟨x, hm, hpx⟩
        simp [List.filter_cons, hp]
        omega
      | false =>
        simp [List.filter_cons, hp]
        omega

theorem mem_keys_filterMap {α β : Type} (l : List α) (key : α → String)
    (f : α → Option (String × β)) (hf : ∀ a q, f a = some q → q.1 = key a)
    (k : String) (h : k ∈ (l.filterMap f).map Prod.fst) : k ∈ l.map key := by
  rcases List.mem_map.mp h with ⟨q, hq, hk⟩
  rcases List.mem_filterMap.mp hq with ⟨a, ha, hfa⟩
  exact List.mem_map.mpr ⟨a, ha, by rw [← hk, hf a q hfa]⟩

theorem nodup_keys_filterMap {α β : Type} (l : List α) (key : α → String)
    (f : α → Option (String × β)) (hf : ∀ a q, f a = some q → q.1 = key a)
    (h : (l.map key).Nodup) : ((l.filterMap f).map Prod.fst).Nodup := by
  induction l with
  | nil => simp
  | cons hd tl ih =>
    simp only [List.map_cons, List.nodup_cons] at h
    cases hq : f hd with
    | none => simpa [List.filterMap_cons, hq] using ih h.2
    | some q =>
      simp only [List.filterMap_cons, hq, List.map_cons, List.nodup_cons]
      refine ⟨?_, ih h.2⟩
      intro hmem
      have hsub : q.1 ∈ tl.map key :=
        mem_keys_filterMap tl key f hf q.1 hmem
      rw [hf hd q hq] at hsub
      exact h.1 hsub

/-! ## Sample values used by witnesses and counterexamples -/

def sampleClaims : ActorClaims := ⟨"tarkin", [], "issuer", none, "0.1.0"⟩

def sampleActorsStarted : ActorsStarted :=
  ⟨sampleClaims, [], "registry/tarkin", "PKACTOR", 2, "HOST1"⟩

def evStartedSample : Event := .actorsStarted sampleActorsStarted

def evOtherSample : Event := .hostStarted ⟨"friendly", "HOST9", []⟩

def noCorresponding : Command → Option (Event × Option Event) := fun _ => none

def oneCommandHandler : Event → List Command := fun _ => [.deleteConfig "cfg"]

/-! ## Claim theorems -/

/-- C8: the command worker acks the message exactly when the Lattice Client
call returns with `success = true`; a `success = false` response is nacked
with the response message as the error, and a transport error is nacked
with that error. -/
theorem command_worker_ack_iff_success
    (client : Command → Except String CtlResponse) (cmd : Command) :
    (commandWorkerDoWork client cmd = .acked ↔
      ∃ r, client cmd = .ok r ∧ r.success = true) ∧
    (∀ r, client cmd = .ok r → r.success = false →
      commandWorkerDoWork client cmd = .nackedWithError r.message) ∧
    (∀ e, client cmd = .error e →
      commandWorkerDoWork client cmd = .nackedWithError e) := by
  refine ⟨?_, ?_, ?_⟩
  · constructor
    · intro h
      cases hc : client cmd with
      | ok r =>
        refine ⟨r, rfl, ?_⟩
        by_contra hs
        simp [commandWorkerDoWork, hc,
          Bool.eq_false_iff.mpr hs] at h
      | error e => simp [commandWorkerDoWork, hc] at h
    · rintro ⟨r, hr, hs⟩
      simp [commandWorkerDoWork, hr, hs]
  · intro r hr hs
    simp [commandWorkerDoWork, hr, hs]
  · intro e he
    simp [commandWorkerDoWork, he]

/-- Witness for C8 at a concrete successful call. -/
theorem command_worker_ack_iff_success_witness :
    commandWorkerDoWork (fun _ => .ok ⟨true, "done"⟩) (.deleteConfig "c")
      = .acked :=
  (command_worker_ack_iff_success (fun _ => .ok ⟨true, "done"⟩)
      (.deleteConfig "c")).1.mpr ⟨⟨true, "done"⟩, rfl, rfl⟩

/-- C4: one host-reaping pass deletes exactly the stored hosts whose elapsed
time `now - last_seen` exceeds `2T` and retains every other host; in
particular a host with `last_seen > now - T` is never deleted. -/
theorem reap_hosts_deletes_exactly_stale (now : Int) (T : Nat) (s : StoreState)
    (hostId : String) (h : Host)
    (hnd : (s.hosts.map Prod.fst).Nodup)
    (hget : Smap.get s.hosts hostId = some h) :
    (Smap.get (reap_hosts now T s).hosts hostId = none ↔
      now - h.last_seen > (T : Int) * 2) ∧
    (h.last_seen > now - (T : Int) →
      Smap.get (reap_hosts now T s).hosts hostId = some h) := by
  have hmem :
      hostId ∈ reapHostsToRemove now T s.hosts ↔
        now - h.last_seen > (T : Int) * 2 := by
    constructor
    · intro hin
      rcases List.mem_filterMap.mp hin with ⟨p, hp, hfp⟩
      by_cases hc : now - p.2.last_seen > (T : Int) * 2
      · rw [if_pos hc] at hfp
        have hkey : p.1 = hostId := Option.some.inj hfp
        have hpair : (hostId, p.2) ∈ s.hosts := by
          rw [← hkey]
          exact hp
        have heq := Smap.eq_of_mem_mem_nodup s.hosts hostId p.2 h hnd hpair
          (Smap.mem_of_get s.hosts hostId h hget)
        rw [← heq]
        exact hc
      · rw [if_neg hc] at hfp
        cases hfp
    · intro hc
      exact List.mem_filterMap.mpr
        ⟨(hostId, h), Smap.mem_of_get s.hosts hostId h hget, by simp [hc]⟩
  have hres : Smap.get (reap_hosts now T s).hosts hostId =
      if hostId ∈ reapHostsToRemove now T s.hosts then none
      else Smap.get s.hosts hostId :=
    Smap.get_delMany s.hosts (reapHostsToRemove now T s.hosts) hostId
  constructor
  · constructor
    · intro hnone
      by_contra hc
      rw [hres, if_neg (fun hin => hc (hmem.mp hin)), hget] at hnone
      cases hnone
    · intro hc
      rw [hres, if_pos (hmem.mpr hc)]
  · intro hfresh
    have hno : ¬now - h.last_seen > (T : Int) * 2 := by omega
    rw [hres, if_neg (fun hin => hno (hmem.mp hin))]
    exact hget

/-- A host last seen at time 95, fresh relative to `now = 100`, `T = 10`. -/
def freshHost : Host :=
  { actors := []
    friendly_name := "fresh"
    labels := []
    annotations := []
    providers := []
    uptime_seconds := 0
    version := none
    id := "HF"
    last_seen := 95 }

/-- Witness for C4: a fresh host survives the reap pass. -/
theorem reap_hosts_deletes_exactly_stale_witness :
    Smap.get (reap_hosts 100 10 ⟨[("HF", freshHost)], [], []⟩).hosts "HF"
      = some freshHost := by
  refine (reap_hosts_deletes_exactly_stale 100 10 _ "HF" freshHost ?_ ?_).2 ?_
  · decide
  · rfl
  · decide

/-- C1: while the expected-event list is non-empty, the backoff wrapper's
`handle_event` (for an event matching no pending entry) and `reconcile`
both return the empty command list. -/
theorem backoff_settling_emits_no_commands
    (inner_handle : Event → List Command) (inner_reconcile : List Command)
    (corresponding : Command → Option (Event × Option Event))
    (model_name scaler_id : String) (cleanup_timeout now : Nat)
    (st : BackoffState) (ev : Event)
    (hne : st.expectedEvents ≠ [])
    (hnm : ∀ p ∈ st.expectedEvents, pairMatches p ev = false) :
    (handleEventInternal inner_handle corresponding model_name scaler_id
        cleanup_timeout now st ev).1 = [] ∧
    (reconcileInternal inner_reconcile corresponding model_name scaler_id
        cleanup_timeout now st).1 = [] := by
  have hfilter :
      st.expectedEvents.filter (fun p => !(pairMatches p ev))
        = st.expectedEvents :=
    List.filter_eq_self.mpr (fun a ha => by simp [hnm a ha])
  have hpos : 0 < st.expectedEvents.length := List.length_pos.mpr hne
  have hre : (removeEvent st ev).2 = false := by
    simp [removeEvent, hfilter]
  have hre1 : (removeEvent st ev).1.expectedEvents = st.expectedEvents := by
    simp [removeEvent, hfilter]
  constructor
  · simp [handleEventInternal, hre, hre1, hpos]
  · simp [reconcileInternal, hpos]

/-- Witness for C1: one pending pair, a non-matching event, and an inner
scaler that would emit a command. -/
theorem backoff_settling_emits_no_commands_witness :
    (handleEventInternal oneCommandHandler noCorresponding "m" "sid"
        30 0 ⟨[(evStartedSample, none)], none⟩ evOtherSample).1 = [] ∧
    (reconcileInternal [Command.deleteConfig "cfg"] noCorresponding "m" "sid"
        30 0 ⟨[(evStartedSample, none)], none⟩).1 = [] :=
  backoff_settling_emits_no_commands oneCommandHandler
    [Command.deleteConfig "cfg"] noCorresponding "m" "sid" 30 0
    ⟨[(evStartedSample, none)], none⟩ evOtherSample
    (by decide) (by decide)

/-- C3 (amended): when the incoming event matches at least one pending
(success, optional-failure) entry, `handle_event` removes every matching
entry from the list (not only the first), publishes a remove-expected-event
notification, and returns no commands. -/
theorem backoff_matching_event_removes_all_matches
    (inner_handle : Event → List Command)
    (corresponding : Command → Option (Event × Option Event))
    (model_name scaler_id : String) (cleanup_timeout now : Nat)
    (st : BackoffState) (ev : Event)
    (hm : ∃ p ∈ st.expectedEvents, pairMatches p ev = true) :
    (handleEventInternal inner_handle corresponding model_name scaler_id
        cleanup_timeout now st ev).1 = [] ∧
    (handleEventInternal inner_handle corresponding model_name scaler_id
        cleanup_timeout now st ev).2.1.expectedEvents
      = st.expectedEvents.filter (fun p => !(pairMatches p ev)) ∧
    (handleEventInternal inner_handle corresponding model_name scaler_id
        cleanup_timeout now st ev).2.2
      = [.removeExpectedEvent model_name scaler_id ev] := by
  have hlt :
      (st.expectedEvents.filter (fun p => !(pairMatches p ev))).length
        < st.expectedEvents.length := by
    rcases hm with ⟨p, hp, hmp⟩
    exact length_filter_lt_of_exists_not st.expectedEvents _
      ⟨p, hp, by simp [hmp]⟩
  have hre : (removeEvent st ev).2 = true := by
    simp only [removeEvent]
    exact bne_iff_ne.mpr (Nat.ne_of_lt hlt)
  have key : handleEventInternal inner_handle corresponding model_name
      scaler_id cleanup_timeout now st ev
      = ([], (removeEvent st ev).1,
          [.removeExpectedEvent model_name scaler_id ev]) := by
    simp only [handleEventInternal]
    rw [hre]
    simp
  refine ⟨by rw [key], ?_, by rw [key]⟩
  rw [key]
  simp [removeEvent]

/-- Witness for C3's amended statement at a single matching pair. -/
theorem backoff_matching_event_removes_all_matches_witness :
    (handleEventInternal oneCommandHandler noCorresponding "m" "sid" 30 0
        ⟨[(evStartedSample, none)], none⟩ evStartedSample).1 = [] ∧
    (handleEventInternal oneCommandHandler noCorresponding "m" "sid" 30 0
        ⟨[(evStartedSample, none)], none⟩ evStartedSample).2.1.expectedEvents
      = List.filter (fun p => !(pairMatches p evStartedSample))
          [(evStartedSample, none)] ∧
    (handleEventInternal oneCommandHandler noCorresponding "m" "sid" 30 0
        ⟨[(evStartedSample, none)], none⟩ evStartedSample).2.2
      = [.removeExpectedEvent "m" "sid" evStartedSample] :=
  backoff_matching_event_removes_all_matches oneCommandHandler
    noCorresponding "m" "sid" 30 0 ⟨[(evStartedSample, none)], none⟩
    evStartedSample ⟨(evStartedSample, none), by decide, by decide⟩

/-- Counterexample for C3 as stated: with two identical matching entries,
`handle_event` leaves an empty list, not the claimed singleton with the
second entry retained. -/
theorem backoff_remove_first_only_counterexample :
    (handleEventInternal oneCommandHandler noCorresponding "m" "sid" 30 0
        ⟨[(evStartedSample, none), (evStartedSample, none)], none⟩
        evStartedSample).2.1.expectedEvents = [] ∧
    ([] : List (Event × Option Event)) ≠ [(evStartedSample, none)] := by
  refine ⟨?_, by decide⟩
  decide

/-- C9 (amended): adding entries to the expected-event list reschedules the
one-shot cleanup at `now + cleanup_timeout`, overwriting (aborting) any
prior timer handle; removing a matched entry mutates the list without
touching the timer; and when the timer fires the list is cleared
unconditionally. -/
theorem backoff_timer_reschedule_on_add_only :
    (∀ cleanup_timeout now st events clear_previous,
      (addEvents cleanup_timeout now st events clear_previous).cleanupDeadline
        = some (now + cleanup_timeout)) ∧
    (∀ st ev, ((removeEvent st ev).1).cleanupDeadline = st.cleanupDeadline) ∧
    (∀ st, (cleanupTimerFire st).expectedEvents = []) :=
  ⟨fun _ _ _ _ _ => rfl, fun _ _ => rfl, fun _ => rfl⟩

/-- Counterexample for C9 as stated: removing a matching entry is a mutation
of the expected-event list after which the cleanup timer is NOT rescheduled
to `now + cleanup_timeout`. -/
theorem backoff_remove_does_not_reschedule_counterexample :
    (handleEventInternal oneCommandHandler noCorresponding "m" "sid" 30 0
        ⟨[(evStartedSample, none)], none⟩ evStartedSample).2.1.expectedEvents
      ≠ [(evStartedSample, none)] ∧
    (handleEventInternal oneCommandHandler noCorresponding "m" "sid" 30 0
        ⟨[(evStartedSample, none)], none⟩ evStartedSample).2.1.cleanupDeadline
      = none ∧
    (none : Option Nat) ≠ some (0 + 30) := by
  refine ⟨?_, ?_, by decide⟩
  · decide
  · decide

/-- Witness for C7: a pair matching on the ComponentsStarted fingerprint,
and a differing-variant pair that never matches. -/
theorem evt_matches_expected_matches_spec_witness :
    MatchesSpec evStartedSample evStartedSample ∧
    evt_matches_expected evStartedSample evOtherSample = false :=
  ⟨(evt_matches_expected_matches_spec evStartedSample evStartedSample).1.mp
      (by decide),
   (evt_matches_expected_matches_spec evStartedSample evOtherSample).2
      (by decide)⟩

/-- C6 (amended): the name-hint extraction of `do_work` runs only the hinted
manifest's scalers for the annotated component started/stopped (singular and
plural), components-start-failed and provider-started events; those variants
broadcast when the annotation is missing; every other variant broadcasts
even when its annotations carry a manifest name (notably provider-stopped
and provider-start-failed), except that a manifest-unpublished event whose
manifest still has scalers acks without running any scaler. -/
theorem event_dispatch_characterization (scalersExist : String → Bool)
    (ev : Event) :
    (∀ n, hintedVariant ev = true → eventManifestName ev = some n →
      eventDispatch scalersExist ev = .hint n) ∧
    (hintedVariant ev = true → eventManifestName ev = none →
      eventDispatch scalersExist ev = .broadcast) ∧
    (hintedVariant ev = false → (∀ m, ev ≠ .manifestUnpublished m) →
      eventDispatch scalersExist ev = .broadcast) ∧
    (∀ n, eventDispatch scalersExist (.manifestUnpublished n)
      = if scalersExist n then .acked else .broadcast) ∧
    (∀ mgr name, scalersRun mgr (.hint name)
      = (Smap.get mgr name).elim [] (fun l => l)) ∧
    (∀ mgr, scalersRun mgr .broadcast
      = (mgr.map (fun p => p.2)).foldr (fun a b => a ++ b) []) := by
  refine ⟨?_, ?_, ?_, fun n => rfl, fun mgr name => rfl, fun mgr => rfl⟩
  · intro n hv hn
    cases ev <;> simp_all [hintedVariant, eventManifestName, eventAnnotations,
      eventDispatch, dispatchFromAnnots]
  · intro hv hn
    cases ev <;> simp_all [hintedVariant, eventManifestName, eventAnnotations,
      eventDispatch, dispatchFromAnnots]
  · intro hv hnm
    cases ev with
    | manifestUnpublished m => exact absurd rfl (hnm m)
    | _ => simp_all [hintedVariant, eventDispatch]

/-- Witness for C6's amended statement: an annotated component-started event
dispatches as a hint to its manifest. -/
theorem event_dispatch_characterization_witness :
    eventDispatch (fun _ => false)
      (.actorStarted ⟨sampleClaims, "ref", "PK", "H1",
        [(APP_SPEC_ANNOT, "mymodel")], "inst"⟩)
      = .hint "mymodel" :=
  (event_dispatch_characterization (fun _ => false)
      (.actorStarted ⟨sampleClaims, "ref", "PK", "H1",
        [(APP_SPEC_ANNOT, "mymodel")], "inst"⟩)).1 "mymodel"
    (by decide) (by decide)

/-- Counterexample for C6 as stated: a provider-stopped event carrying the
manifest-name annotation is still broadcast to every scaler, not routed to
that one manifest. -/
theorem event_dispatch_hint_counterexample :
    eventManifestName (.providerStopped ⟨[(APP_SPEC_ANNOT, "mymodel")],
        "ctr", "inst", "link", "PK", "", "H1"⟩) = some "mymodel" ∧
    eventDispatch (fun _ => false)
      (.providerStopped ⟨[(APP_SPEC_ANNOT, "mymodel")],
        "ctr", "inst", "link", "PK", "", "H1"⟩) = .broadcast ∧
    DispatchOutcome.broadcast ≠ .hint "mymodel" := by
  refine ⟨?_, ?_, by decide⟩
  · decide
  · decide

/-- C10: component instance descriptors are identified by instance id alone
(descriptors with equal instance ids compare equal whatever their
annotations); consequently, when the stored component already contains an
instance with the event's instance id on that host, handling the
component-started event leaves that host's stored instance set — and so the
stored descriptor's annotations — unchanged. -/
theorem handle_actor_started_keeps_existing_annotations
    (s : StoreState) (ev : ActorStarted) (a : Actor)
    (insts : List WadmActorInstance)
    (hga : Smap.get s.actors ev.public_key = some a)
    (hgi : Smap.get a.instances ev.host_id = some insts)
    (hmem : instSetMem insts ⟨ev.instance_id, ev.annotations⟩ = true) :
    (∀ i j : WadmActorInstance, i.instance_id = j.instance_id →
      wadmInstanceEq i j = true) ∧
    ∃ a₂, Smap.get (handle_actor_started s ev).actors ev.public_key = some a₂
      ∧ Smap.get a₂.instances ev.host_id = some insts := by
  have hkeep : instSetInsert insts ⟨ev.instance_id, ev.annotations⟩ = insts := by
    simp [instSetInsert, hmem]
  constructor
  · intro i j hij
    simp [wadmInstanceEq, hij]
  · unfold handle_actor_started
    cases hh : Smap.get s.hosts ev.host_id with
    | none =>
      simp only [hga, hh]
      refine ⟨_, Smap.get_put_self _ _ _, ?_⟩
      simp only [Smap.entryModifyOrInsert, hgi, hkeep]
      exact Smap.get_put_self _ _ _
    | some host =>
      simp only [hga, hh]
      refine ⟨_, Smap.get_put_self _ _ _, ?_⟩
      simp only [Smap.entryModifyOrInsert, hgi, hkeep]
      exact Smap.get_put_self _ _ _

/-- An actor stored with one instance (id `inst1`, annotation `k ↦ old`) on
host `H`. -/
def c10Actor : Actor :=
  { id := "A"
    name := "n"
    capabilities := []
    issuer := "i"
    call_alias := none
    instances := [("H", [⟨"inst1", [("k", "old")]⟩])]
    reference := "r" }

/-- A store holding only `c10Actor`. -/
def c10Store : StoreState := ⟨[], [("A", c10Actor)], []⟩

/-- A component-started event for the same instance id with different
annotations. -/
def c10Ev : ActorStarted :=
  ⟨sampleClaims, "r", "A", "H", [("k", "new")], "inst1"⟩

/-- Witness for C10: the duplicate start with new annotations leaves the
stored descriptor's annotations at their old value. -/
theorem handle_actor_started_keeps_existing_annotations_witness :
    (∀ i j : WadmActorInstance, i.instance_id = j.instance_id →
      wadmInstanceEq i j = true) ∧
    ∃ a₂, Smap.get (handle_actor_started c10Store c10Ev).actors
        c10Ev.public_key = some a₂
      ∧ Smap.get a₂.instances c10Ev.host_id
          = some [⟨"inst1", [("k", "old")]⟩] :=
  handle_actor_started_keeps_existing_annotations c10Store c10Ev c10Actor
    [⟨"inst1", [("k", "old")]⟩] rfl rfl (by decide)

/-- A host `H` with component count 0 entries, as freshly started. -/
def c2Host : Host :=
  { actors := []
    friendly_name := "f"
    labels := []
    annotations := []
    providers := []
    uptime_seconds := 0
    version := none
    id := "H"
    last_seen := 0 }

/-- A store holding only the fresh host `H`. -/
def c2Store : StoreState := ⟨[("H", c2Host)], [], []⟩

/-- A component-started event for instance `inst1` on host `H`. -/
def c2Ev : ActorStarted := ⟨sampleClaims, "r", "A", "H", [], "inst1"⟩

/-- The store after handling `c2Ev` once. -/
def c2Once : StoreState := handle_actor_started c2Store c2Ev

/-- The store after handling the same event a second time. -/
def c2Twice : StoreState := handle_actor_started c2Once c2Ev

/-- C2 evaluated at the failing input: handling the same component-started
event twice does not yield the once-applied store — the component's
instance sets agree, but the host's per-component count is 1 after one
application and 2 after the duplicate. -/
theorem handle_actor_started_not_idempotent :
    c2Twice ≠ c2Once ∧
    (Smap.get c2Once.hosts "H").map (fun h => Smap.get h.actors "A")
      = some (some 1) ∧
    (Smap.get c2Twice.hosts "H").map (fun h => Smap.get h.actors "A")
      = some (some 2) ∧
    (Smap.get c2Twice.actors "A").map (fun a => a.instances)
      = (Smap.get c2Once.actors "A").map (fun a => a.instances) := by
  refine ⟨by decide, ?_, ?_, ?_⟩ <;> decide

/-- The store key a host-record provider descriptor refers to. -/
def providerInfoKey (info : ProviderInfo) : String :=
  provider_id info.public_key info.link_name

theorem hsProcessedActors_key (s : StoreState) (current : Host)
    (q : String × Actor) (hq : q ∈ hsProcessedActors s current) :
    Smap.hasKey current.actors q.1 = true := by
  rcases List.mem_filterMap.mp hq with ⟨p, hp, hfp⟩
  by_cases hk : Smap.hasKey current.actors p.1
  · rw [if_pos hk] at hfp
    cases hfp
    exact hk
  · rw [if_neg hk] at hfp
    cases hfp

theorem hsProcessedActors_nodup (s : StoreState) (current : Host)
    (hnd : (s.actors.map Prod.fst).Nodup) :
    ((hsProcessedActors s current).map Prod.fst).Nodup := by
  refine nodup_keys_filterMap s.actors Prod.fst _ ?_ hnd
  intro p q hfq
  by_cases hk : Smap.hasKey current.actors p.1
  · rw [if_pos hk] at hfq
    cases hfq
    rfl
  · rw [if_neg hk] at hfq
    cases hfq

theorem mem_hsProcessedActors (s : StoreState) (current : Host)
    (aid : String) (a : Actor) (ha : (aid, a) ∈ s.actors)
    (hk : Smap.hasKey current.actors aid = true) :
    (aid, { a with instances := Smap.del a.instances current.id })
      ∈ hsProcessedActors s current :=
  List.mem_filterMap.mpr ⟨(aid, a), ha, by simp [hk]⟩

theorem hsProviderStep_some (s : StoreState) (hid : String)
    (info : ProviderInfo) (q : String × Provider)
    (hfi : hsProviderStep s hid info = some q) :
    q.1 = providerInfoKey info := by
  cases hg : Smap.get s.providers (provider_id info.public_key info.link_name) with
  | none =>
    simp only [hsProviderStep, hg] at hfi
    cases hfi
  | some prov =>
    simp only [hsProviderStep, hg] at hfi
    by_cases hk : Smap.hasKey prov.hosts hid
    · rw [if_pos hk] at hfi
      cases hfi
      rfl
    · rw [if_neg hk] at hfi
      cases hfi

theorem hsProcessedProviders_key (s : StoreState) (current : Host)
    (hid : String) (q : String × Provider)
    (hq : q ∈ hsProcessedProviders s current hid) :
    ∃ info ∈ current.providers, q.1 = providerInfoKey info := by
  rcases List.mem_filterMap.mp hq with ⟨info, hi, hfi⟩
  exact ⟨info, hi, hsProviderStep_some s hid info q hfi⟩

theorem hsProcessedProviders_nodup (s : StoreState) (current : Host)
    (hid : String)
    (hnd : (current.providers.map providerInfoKey).Nodup) :
    ((hsProcessedProviders s current hid).map Prod.fst).Nodup :=
  nodup_keys_filterMap current.providers providerInfoKey _
    (fun info q hfq => hsProviderStep_some s hid info q hfq) hnd

theorem mem_hsProcessedProviders (s : StoreState) (current : Host)
    (hid : String) (info : ProviderInfo) (p : Provider)
    (hi : info ∈ current.providers)
    (hg : Smap.get s.providers (providerInfoKey info) = some p)
    (hk : Smap.hasKey p.hosts hid = true) :
    (providerInfoKey info, { p with hosts := Smap.del p.hosts hid })
      ∈ hsProcessedProviders s current hid := by
  refine List.mem_filterMap.mpr ⟨info, hi, ?_⟩
  simp only [providerInfoKey] at hg
  simp only [hsProviderStep, hg, hk, if_pos, providerInfoKey]

theorem handle_host_stopped_result (s : StoreState) (ev : HostStopped)
    (h : Host) (hget : Smap.get s.hosts ev.id = some h) :
    handle_host_stopped s ev
      = ({ hosts := Smap.del s.hosts ev.id
           actors := Smap.delMany
             (Smap.putMany s.actors (hsActorsToUpdate s h))
             (hsActorsToDelete s h)
           providers := Smap.delMany
             (Smap.putMany s.providers (hsProvidersToUpdate s h ev.id))
             (hsProvidersToDelete s h ev.id) },
         [StoreOp.storeActors (hsActorsToUpdate s h),
          StoreOp.deleteActors (hsActorsToDelete s h),
          StoreOp.storeProviders (hsProvidersToUpdate s h ev.id),
          StoreOp.deleteProviders (hsProvidersToDelete s h ev.id),
          StoreOp.deleteHost ev.id]) := by
  simp only [handle_host_stopped, hget]

/-- C5 (amended): handling a host-stopped event for a known host removes the
host record's id from exactly the stored components listed in that record's
per-component count map, and the event's host id from exactly the stored
providers named in the record's provider descriptor set (all other
components and providers are untouched); entities whose mapping becomes
empty are deleted; the Host record is deleted by the last store operation
only; and when no Host record exists the store is unchanged with no writes. -/
theorem handle_host_stopped_characterization (s : StoreState)
    (ev : HostStopped) (hndA : (s.actors.map Prod.fst).Nodup) :
    (Smap.get s.hosts ev.id = none → handle_host_stopped s ev = (s, [])) ∧
    (∀ h, Smap.get s.hosts ev.id = some h →
      (h.providers.map providerInfoKey).Nodup →
      ((∀ aid a, Smap.get s.actors aid = some a →
        Smap.hasKey h.actors aid = false →
        Smap.get (handle_host_stopped s ev).1.actors aid = some a) ∧
      (∀ aid a, Smap.get s.actors aid = some a →
        Smap.hasKey h.actors aid = true →
        Smap.get (handle_host_stopped s ev).1.actors aid
          = if (Smap.del a.instances h.id).isEmpty then none
            else some { a with instances := Smap.del a.instances h.id }) ∧
      (∀ pid p, Smap.get s.providers pid = some p →
        (∀ info ∈ h.providers, providerInfoKey info ≠ pid) →
        Smap.get (handle_host_stopped s ev).1.providers pid = some p) ∧
      (∀ info p, info ∈ h.providers →
        Smap.get s.providers (providerInfoKey info) = some p →
        Smap.hasKey p.hosts ev.id = true →
        Smap.get (handle_host_stopped s ev).1.providers (providerInfoKey info)
          = if (Smap.del p.hosts ev.id).isEmpty then none
            else some { p with hosts := Smap.del p.hosts ev.id }) ∧
      (Smap.get (handle_host_stopped s ev).1.hosts ev.id = none ∧
       (handle_host_stopped s ev).2.getLast? = some (.deleteHost ev.id) ∧
       ∀ op ∈ (handle_host_stopped s ev).2.dropLast,
         ∀ x, op ≠ .deleteHost x))) := by
  constructor
  · intro hnone
    simp only [handle_host_stopped, hnone]
  · intro h hget hndHP
    have hres := handle_host_stopped_result s ev h hget
    have hndP := hsProcessedActors_nodup s h hndA
    have hndPP := hsProcessedProviders_nodup s h ev.id hndHP
    refine ⟨?_, ?_, ?_, ?_, ?_, ?_, ?_⟩
    · intro aid a hga hkf
      rw [hres]
      simp only
      rw [Smap.get_delMany]
      have hnotdel : aid ∉ hsActorsToDelete s h := by
        intro hin
        simp only [hsActorsToDelete] at hin
        rcases List.mem_map.mp hin with ⟨q, hq, hkey⟩
        have hqp := hsProcessedActors_key s h q (List.mem_of_mem_filter hq)
        rw [hkey] at hqp
        rw [hkf] at hqp
        cases hqp
      rw [if_neg hnotdel, Smap.get_putMany]
      have hlb : lastBinding (hsActorsToUpdate s h) aid = none := by
        apply lastBinding_eq_none
        intro q hq hkey
        simp only [hsActorsToUpdate] at hq
        have hqp := hsProcessedActors_key s h q (List.mem_of_mem_filter hq)
        rw [hkey] at hqp
        rw [hkf] at hqp
        cases hqp
      rw [hlb]
      simpa using hga
    · intro aid a hga hkt
      rw [hres]
      simp only
      rw [Smap.get_delMany]
      have hmemP : (aid, { a with instances := Smap.del a.instances h.id })
          ∈ hsProcessedActors s h :=
        mem_hsProcessedActors s h aid a (Smap.mem_of_get _ _ _ hga) hkt
      by_cases hemp : (Smap.del a.instances h.id).isEmpty
      · have hdel : aid ∈ hsActorsToDelete s h := by
          simp only [hsActorsToDelete]
          exact List.mem_map.mpr
            ⟨(aid, { a with instances := Smap.del a.instances h.id }),
             List.mem_filter.mpr ⟨hmemP, by simpa using hemp⟩, rfl⟩
        rw [if_pos hdel, if_pos hemp]
      · have hnotdel : aid ∉ hsActorsToDelete s h := by
          intro hin
          simp only [hsActorsToDelete] at hin
          rcases List.mem_map.mp hin with ⟨q, hq, hkey⟩
          have hq₁ := List.mem_filter.mp hq
          have hqP : (aid, q.2) ∈ hsProcessedActors s h := by
            rw [← hkey]
            simpa using hq₁.1
          have heq := Smap.eq_of_mem_mem_nodup (hsProcessedActors s h) aid q.2
            { a with instances := Smap.del a.instances h.id } hndP hqP hmemP
          have hq₂ : q.2.instances.isEmpty = true := by simpa using hq₁.2
          rw [heq] at hq₂
          simp only at hq₂
          exact hemp hq₂
        rw [if_neg hnotdel, Smap.get_putMany]
        have hupd : (aid, { a with instances := Smap.del a.instances h.id })
            ∈ hsActorsToUpdate s h := by
          simp only [hsActorsToUpdate]
          exact List.mem_filter.mpr ⟨hmemP, by simpa using hemp⟩
        have hndU : ((hsActorsToUpdate s h).map Prod.fst).Nodup := by
          simp only [hsActorsToUpdate]
          exact List.Nodup.sublist ((List.filter_sublist _).map Prod.fst) hndP
        have hlb := lastBinding_of_mem_nodup _ aid _ hndU hupd
        rw [hlb, if_neg hemp]
        rfl
    · intro pid p hgp hnm
      rw [hres]
      simp only
      rw [Smap.get_delMany]
      have hnotdel : pid ∉ hsProvidersToDelete s h ev.id := by
        intro hin
        simp only [hsProvidersToDelete] at hin
        rcases List.mem_map.mp hin with ⟨q, hq, hkey⟩
        rcases hsProcessedProviders_key s h ev.id q
          (List.mem_of_mem_filter hq) with ⟨info, hinfo, hqk⟩
        exact hnm info hinfo (by rw [← hqk, hkey])
      rw [if_neg hnotdel, Smap.get_putMany]
      have hlb : lastBinding (hsProvidersToUpdate s h ev.id) pid = none := by
        apply lastBinding_eq_none
        intro q hq hkey
        simp only [hsProvidersToUpdate] at hq
        rcases hsProcessedProviders_key s h ev.id q
          (List.mem_of_mem_filter hq) with ⟨info, hinfo, hqk⟩
        exact hnm info hinfo (by rw [← hqk, hkey])
      rw [hlb]
      simpa using hgp
    · intro info p hinfo hgp hkt
      rw [hres]
      simp only
      rw [Smap.get_delMany]
      have hmemP : (providerInfoKey info,
          { p with hosts := Smap.del p.hosts ev.id })
            ∈ hsProcessedProviders s h ev.id :=
        mem_hsProcessedProviders s h ev.id info p hinfo hgp hkt
      by_cases hemp : (Smap.del p.hosts ev.id).isEmpty
      · have hdel : providerInfoKey info ∈ hsProvidersToDelete s h ev.id := by
          simp only [hsProvidersToDelete]
          exact List.mem_map.mpr
            ⟨(providerInfoKey info,
              { p with hosts := Smap.del p.hosts ev.id }),
             List.mem_filter.mpr ⟨hmemP, by simpa using hemp⟩, rfl⟩
        rw [if_pos hdel, if_pos hemp]
      · have hnotdel : providerInfoKey info ∉ hsProvidersToDelete s h ev.id := by
          intro hin
          simp only [hsProvidersToDelete] at hin
          rcases List.mem_map.mp hin with ⟨q, hq, hkey⟩
          have hq₁ := List.mem_filter.mp hq
          have hqP : (providerInfoKey info, q.2)
              ∈ hsProcessedProviders s h ev.id := by
            rw [← hkey]
            simpa using hq₁.1
          have heq := Smap.eq_of_mem_mem_nodup
            (hsProcessedProviders s h ev.id) (providerInfoKey info) q.2
            { p with hosts := Smap.del p.hosts ev.id } hndPP hqP hmemP
          have hq₂ : q.2.hosts.isEmpty = true := by simpa using hq₁.2
          rw [heq] at hq₂
          simp only at hq₂
          exact hemp hq₂
        rw [if_neg hnotdel, Smap.get_putMany]
        have hupd : (providerInfoKey info,
            { p with hosts := Smap.del p.hosts ev.id })
              ∈ hsProvidersToUpdate s h ev.id := by
          simp only [hsProvidersToUpdate]
          exact List.mem_filter.mpr ⟨hmemP, by simpa using hemp⟩
        have hndU : ((hsProvidersToUpdate s h ev.id).map Prod.fst).Nodup := by
          simp only [hsProvidersToUpdate]
          exact List.Nodup.sublist ((List.filter_sublist _).map Prod.fst) hndPP
        have hlb := lastBinding_of_mem_nodup _ (providerInfoKey info) _ hndU hupd
        rw [hlb, if_neg hemp]
        rfl
    · rw [hres]
      exact Smap.get_del_self _ _
    · rw [hres]
      rfl
    · rw [hres]
      intro op hop x
      simp only [List.dropLast, List.mem_cons, List.not_mem_nil,
        or_false] at hop
      rcases hop with h₁ | h₁ | h₁ | h₁ <;> subst h₁ <;>
        exact fun hcc => StoreOp.noConfusion hcc

/-- A host record for `H` whose per-component count map is empty. -/
def c5Host : Host :=
  { actors := []
    friendly_name := "f"
    labels := []
    annotations := []
    providers := []
    uptime_seconds := 0
    version := none
    id := "H"
    last_seen := 0 }

/-- A component with an instance on host `H` that `c5Host` does not list. -/
def c5Actor : Actor :=
  { id := "X"
    name := "n"
    capabilities := []
    issuer := "i"
    call_alias := none
    instances := [("H", [⟨"i1", []⟩])]
    reference := "r" }

/-- A store holding `c5Host` and `c5Actor`. -/
def c5Store : StoreState := ⟨[("H", c5Host)], [("X", c5Actor)], []⟩

/-- A host-stopped event for `H`. -/
def c5Ev : HostStopped := ⟨[], "H"⟩

/-- Counterexample for C5 as stated: although a Host record for `H` exists
and component `X` maps host `H`, handling host-stopped leaves `X`'s
host-mapping untouched (because `H`'s count map does not list `X`) while
deleting the Host — so the host id is NOT removed from every stored
component. -/
theorem handle_host_stopped_every_component_counterexample :
    Smap.get c5Store.hosts "H" = some c5Host ∧
    Smap.hasKey c5Actor.instances "H" = true ∧
    Smap.get (handle_host_stopped c5Store c5Ev).1.actors "X" = some c5Actor ∧
    Smap.get (handle_host_stopped c5Store c5Ev).1.hosts "H" = none := by
  refine ⟨rfl, rfl, ?_, ?_⟩ <;> decide

/-- Witness for C5's amended statement: on `c5Store` the unlisted component
survives unchanged and the host deletion is the final store operation. -/
theorem handle_host_stopped_characterization_witness :
    Smap.get (handle_host_stopped c5Store c5Ev).1.actors "X" = some c5Actor ∧
    (handle_host_stopped c5Store c5Ev).2.getLast?
      = some (StoreOp.deleteHost "H") :=
  ⟨((handle_host_stopped_characterization c5Store c5Ev (by decide)).2 c5Host
      rfl (by decide)).1 "X" c5Actor rfl (by decide),
   (((handle_host_stopped_characterization c5Store c5Ev (by decide)).2 c5Host
      rfl (by decide)).2.2.2.2).2.1⟩
